import Mathlib

/-!
Verification of the connection / RPC-multiplexing core of the ExploUtor
repository (src/src/connection/JsonRpcHandler.ts,
src/src/connection/WebSocketManager.ts, src/src/types/protocol.ts).

The TypeScript code is shallowly embedded as follows.

JsonRpcHandler: the handler's mutable fields (requestId counter, the
pendingRequests map, the notificationHandlers map) become the fields of
RpcState.  In the source, a pendingRequests entry for an id exists exactly
while that call's timeout timer is armed (every path that deletes an entry
first clears its timer, and the timer callback deletes the entry when it
fires), so the entry set and the armed-timer set are modelled as one list
of ids.  A call's promise "settling" (resolve / reject) is an observable
event; every operation of the handler is a step that returns the new state
together with the list of settlement events it produced.  The labels of
the transition system are exactly the stimuli of the source: issuing a
request (with the ambient facts of whether WebSocketManager.isConnected()
holds and whether send() returns true), an inbound Response, a timeout
timer firing (possible only while armed, i.e. while the entry is pending),
and dispose().  Response / notification payloads are opaque to the core
(it routes them verbatim), so they are modelled by an opaque value type.

Notification fan-out: handleNotification iterates the array obtained from
notificationHandlers.get(method) with a for...of loop.  That array is the
live array stored in the map (Map.get returns the stored reference, and
onNotification pushes onto / its disposable splices out of that same
array), so mid-dispatch registry mutations are visible to the in-progress
iteration.  The JavaScript array iterator reads index 0, 1, 2, ... and
stops as soon as the index reaches the current length, re-checking the
length each step.  runHandlers models exactly that loop; a handler's
observable interaction with the registry during its invocation is modelled
by an effect (do nothing / throw, which handleNotification catches /
splice out the first handler with a given id, as the onNotification
disposable does / push a new handler, as onNotification does).

WebSocketManager: fields state, reconnectAttempts, reconnectTimer and ws
become WsState (the timer and socket are modelled by whether they are
present; maxReconnectAttempts = 10, reconnectDelay = 1000 as in the
source).  Its methods and the socket callbacks become steps that return
the new state plus the emitted events (state-change events fired by the
onStateChange emitter, and reconnect-timer arming with the computed
delay).  The 'open' callback can only fire for an existing socket while
the manager is still connecting, and the reconnect-timer callback can only
run while the timer is armed; those physical enabling facts are encoded as
guards that make the corresponding label a no-op otherwise.  The
autoConnect configuration value read by handleDisconnect is a parameter of
the step.  The catch branch of connect() (the WebSocket constructor
throwing synchronously) is not reachable through any claim and is not
modelled.
-/

/-- Payloads (params, results, error data) are opaque to the core: it
routes them verbatim and never inspects them. -/
abbrev Val := String

/-- src/src/types/protocol.ts JsonRpcError. -/
structure JsonRpcError where
  code : Int
  message : String
  data : Option Val
  deriving Repr, DecidableEq

/-- src/src/types/protocol.ts JsonRpcResponse.  The handler only ever
assigns numeric ids, so ids are modelled as Nat; `result` and `error` are
optional fields (`none` = absent / undefined / null, i.e. falsy). -/
structure Resp where
  id : Nat
  result : Option Val
  error : Option JsonRpcError
  deriving Repr, DecidableEq

/-- src/src/types/protocol.ts JsonRpcNotification (outbound shape built by
notify). -/
structure JsonRpcNotification where
  jsonrpc : String
  method : String
  params : Option Val
  deriving Repr, DecidableEq

/-! ### Notification handler registry and fan-out -/

/-- The observable registry interaction a notification handler performs
while it runs (handlers are otherwise opaque callbacks). -/
inductive HEff
  /-- the handler returns normally without touching the registry -/
  | pure
  /-- the handler throws; handleNotification catches and logs -/
  | throws
  /-- the handler calls the disposable returned by onNotification for the
  handler with the given id (splice at indexOf) -/
  | unsub (target : Nat)
  /-- the handler calls onNotification for the same method, pushing a new
  handler with the given id -/
  | register (newId : Nat)
  deriving Repr, DecidableEq

/-- A registered notification handler, identified by an id. -/
structure Handler where
  hid : Nat
  eff : HEff
  deriving Repr, DecidableEq

/-- The notificationHandlers map: method name to ordered handler list. -/
def Registry := String → List Handler

/-- The splice performed by the disposable returned by onNotification:
remove the first handler equal to the target if present (indexOf then
splice, guarded by index not being -1). -/
def spliceOut (target : Nat) (arr : List Handler) : List Handler :=
  arr.eraseP (fun h => h.hid == target)

/-- Apply a handler's registry interaction to the live array being
iterated (the map stores this same array, so the mutation is in place). -/
def applyEff (arr : List Handler) : HEff → List Handler
  | .pure => arr
  | .throws => arr
  | .unsub t => spliceOut t arr
  | .register n => arr ++ [⟨n, .pure⟩]

/-- The for...of loop of handleNotification over the live handler array:
at each step, if the current index is still below the current length, the
handler at that index is invoked (recorded together with the params it
received), its registry effect is applied to the live array, and the index
advances; a thrown exception is caught so iteration always continues.
`fuel` bounds the number of iterations (the loop can otherwise be extended
forever by handlers that keep registering new handlers). -/
def runHandlers (params : Val) : Nat → List Handler → Nat → List (Nat × Val) →
    List Handler × List (Nat × Val)
  | 0, arr, _, acc => (arr, acc)
  | fuel + 1, arr, i, acc =>
    if h : i < arr.length then
      let hd := arr.get ⟨i, h⟩
      runHandlers params fuel (applyEff arr hd.eff) (i + 1) (acc ++ [(hd.hid, params)])
    else (arr, acc)

/-- src JsonRpcHandler.handleNotification: look up the (live) handler list
for the method, iterate it, and return the resulting registry together
with the list of handler invocations (handler id, params passed). -/
def handleNotification (fuel : Nat) (reg : Registry) (method : String) (params : Val) :
    Registry × List (Nat × Val) :=
  let res := runHandlers params fuel (reg method) 0 []
  (fun m => if m = method then res.1 else reg m, res.2)

/-- src JsonRpcHandler.onNotification: append the handler to the method's
list (get-or-empty, push, set). -/
def onNotification (reg : Registry) (method : String) (h : Handler) : Registry :=
  fun m => if m = method then reg m ++ [h] else reg m

/-! ### Request/response multiplexer state machine -/

/-- The outcome with which a call's promise settles. -/
inductive Outcome
  /-- resolve(response.result) — fulfilled with the matching Response's
  result (`none` = resolved with undefined) -/
  | fulfilled (v : Option Val)
  /-- reject(new Error(response.error.message)) -/
  | remoteErr (msg : String)
  /-- reject(new Error(Request timeout)) from the timeout timer -/
  | timedOut
  /-- reject(new Error(Failed to send request)) when send returns false -/
  | sendFail
  /-- reject(new Error(Handler disposed)) from dispose() -/
  | disposedRej
  deriving Repr, DecidableEq

/-- Observable events of one multiplexer step. -/
inductive REvent
  /-- a fresh correlation id was assigned to a call -/
  | issued (id : Nat)
  /-- the call with the given id settled with the given outcome -/
  | settle (id : Nat) (o : Outcome)
  /-- request() threw the not-connected error before allocating anything -/
  | threwNotConnected
  deriving Repr, DecidableEq

/-- Mutable state of JsonRpcHandler: the requestId counter, the set of
pending ids (entry in pendingRequests, equivalently armed timeout timer),
and the notificationHandlers registry. -/
structure RpcState where
  requestId : Nat
  pending : List Nat
  handlers : Registry

/-- Initial handler state (requestId = 0, no pending calls, empty
registry). -/
def rpcInit : RpcState :=
  ⟨0, [], fun _ => []⟩

/-- src JsonRpcHandler.request: throw if not connected; otherwise allocate
id = ++requestId, arm the timeout, store the pending entry, and send; if
send returns false, clear the timer, delete the entry and reject with the
send-failure error. -/
def request (s : RpcState) (connected sendOk : Bool) : RpcState × List REvent :=
  if connected = false then
    (s, [.threwNotConnected])
  else
    let id := s.requestId + 1
    if sendOk then
      ({ s with requestId := id, pending := id :: s.pending }, [.issued id])
    else
      ({ s with requestId := id }, [.issued id, .settle id .sendFail])

/-- src JsonRpcHandler.notify: if not connected, return without building
or sending anything; otherwise hand the serialized Notification envelope
to WebSocketManager.send.  The result is the envelope handed to send
(`none` = nothing was sent). -/
def notify (connected : Bool) (method : String) (params : Option Val) :
    Option JsonRpcNotification :=
  if connected = false then none
  else some ⟨"2.0", method, params⟩

/-- src JsonRpcHandler.handleResponse: look up the pending entry by id; if
absent, return silently; otherwise clear the timer, delete the entry, and
reject with the remote error message if response.error is truthy, else
resolve with response.result. -/
def handleResponse (s : RpcState) (r : Resp) : RpcState × List REvent :=
  if r.id ∈ s.pending then
    ({ s with pending := s.pending.erase r.id },
      match r.error with
      | some e => [.settle r.id (.remoteErr e.message)]
      | none => [.settle r.id (.fulfilled r.result)])
  else
    (s, [])

/-- The timeout timer callback of request: delete the entry and reject
with the timeout error.  The timer can only fire while it is armed, i.e.
while the entry is still pending (every other removal path clears the
timer first); a fire label for a non-pending id is therefore a no-op. -/
def fireTimeout (s : RpcState) (id : Nat) : RpcState × List REvent :=
  if id ∈ s.pending then
    ({ s with pending := s.pending.erase id }, [.settle id .timedOut])
  else
    (s, [])

/-- src JsonRpcHandler.dispose: clear every pending entry's timer, reject
each with the disposed error, clear the pending table and the notification
registry. -/
def disposeRpc (s : RpcState) : RpcState × List REvent :=
  ({ s with pending := [], handlers := fun _ => [] },
    s.pending.map (fun i => REvent.settle i .disposedRej))

/-- The stimuli of the multiplexer. -/
inductive RpcLabel
  /-- a consumer calls request(), with the ambient connection/send facts -/
  | issue (connected sendOk : Bool)
  /-- an inbound Response arrives -/
  | inResp (r : Resp)
  /-- the timeout timer of the given id fires -/
  | fireTimer (id : Nat)
  /-- dispose() is called -/
  | disposeOp

/-- One step of the multiplexer. -/
def rpcStep (s : RpcState) : RpcLabel → RpcState × List REvent
  | .issue c so => request s c so
  | .inResp r => handleResponse s r
  | .fireTimer id => fireTimeout s id
  | .disposeOp => disposeRpc s

/-- Run a sequence of stimuli, collecting all events in order. -/
def rpcRun (s : RpcState) : List RpcLabel → RpcState × List REvent
  | [] => (s, [])
  | l :: ls =>
    let r1 := rpcStep s l
    let r2 := rpcRun r1.1 ls
    (r2.1, r1.2 ++ r2.2)

/-- Does this event settle the call with id `i`? -/
def isSettleFor (i : Nat) : REvent → Bool
  | .settle j _ => j == i
  | _ => false

/-- How many times the call with id `i` settled in an event list. -/
def settleCount (evs : List REvent) (i : Nat) : Nat :=
  (evs.filter (isSettleFor i)).length

/-- The correlation ids assigned, in order of assignment. -/
def issuedIds (evs : List REvent) : List Nat :=
  evs.filterMap (fun e => match e with | .issued i => some i | _ => none)

/-- The number of request() calls in a stimulus list that pass the
isConnected check (each of these is assigned an id). -/
def countConn : List RpcLabel → Nat
  | [] => 0
  | .issue true _ :: ls => countConn ls + 1
  | .issue false _ :: ls => countConn ls
  | .inResp _ :: ls => countConn ls
  | .fireTimer _ :: ls => countConn ls
  | .disposeOp :: ls => countConn ls

/-! ### Connection manager (WebSocketManager) state machine -/

/-- src WebSocketManager ConnectionState. -/
inductive ConnectionState
  | disconnected
  | connecting
  | connected
  deriving Repr, DecidableEq

/-- Mutable state of WebSocketManager: the connection state, the
reconnectAttempts counter, whether a reconnect timer is armed, and whether
the ws field holds a socket.  maxReconnectAttempts = 10 and
reconnectDelay = 1000 are the constants of the source. -/
structure WsState where
  state : ConnectionState
  reconnectAttempts : Nat
  timerArmed : Bool
  wsPresent : Bool
  deriving Repr, DecidableEq

/-- Initial manager state. -/
def wsInit : WsState :=
  ⟨.disconnected, 0, false, false⟩

/-- Observable events of one manager step. -/
inductive WsEvent
  /-- onStateChangeEmitter.fire(state) -/
  | stateChange (s : ConnectionState)
  /-- a reconnect timer was armed with the given delay in ms -/
  | scheduled (delay : Nat)
  deriving Repr, DecidableEq

/-- src WebSocketManager.setState: fire a state-change event only when
the new state differs from the current one. -/
def setState (s : WsState) (st : ConnectionState) : WsState × List WsEvent :=
  if s.state ≠ st then ({ s with state := st }, [.stateChange st])
  else (s, [])

/-- src WebSocketManager.cancelReconnect. -/
def cancelReconnect (s : WsState) : WsState :=
  { s with timerArmed := false }

/-- The exponential backoff delay of scheduleReconnect:
min(reconnectDelay * 2 ^ reconnectAttempts, 30000) with
reconnectDelay = 1000. -/
def delayFor (attempts : Nat) : Nat :=
  min (1000 * 2 ^ attempts) 30000

/-- src WebSocketManager.scheduleReconnect: cancel any previous timer and
arm a new one with the backoff delay computed from the current attempt
counter. -/
def scheduleReconnect (s : WsState) : WsState × List WsEvent :=
  let s1 := cancelReconnect s
  ({ s1 with timerArmed := true }, [.scheduled (delayFor s1.reconnectAttempts)])

/-- src WebSocketManager.handleDisconnect: return if already
disconnected; otherwise null the socket, set state to disconnected, and
schedule a reconnect when autoConnect holds and the attempt counter is
below the maximum of 10. -/
def handleDisconnect (autoConnect : Bool) (s : WsState) : WsState × List WsEvent :=
  if s.state = .disconnected then (s, [])
  else
    let r1 := setState { s with wsPresent := false } .disconnected
    if autoConnect ∧ r1.1.reconnectAttempts < 10 then
      let r2 := scheduleReconnect r1.1
      (r2.1, r1.2 ++ r2.2)
    else r1

/-- src WebSocketManager.connect: no-op when already connected or
connecting; otherwise enter connecting and create the socket. -/
def wsConnect (s : WsState) : WsState × List WsEvent :=
  if s.state = .connected ∨ s.state = .connecting then (s, [])
  else
    let r1 := setState s .connecting
    ({ r1.1 with wsPresent := true }, r1.2)

/-- src WebSocketManager.disconnect: cancel any scheduled reconnect,
close and null the socket, force the state to disconnected. -/
def wsDisconnect (s : WsState) : WsState × List WsEvent :=
  setState { (cancelReconnect s) with wsPresent := false } .disconnected

/-- The socket open callback: set state to connected and reset the
attempt counter. -/
def wsOpen (s : WsState) : WsState × List WsEvent :=
  let r1 := setState s .connected
  ({ r1.1 with reconnectAttempts := 0 }, r1.2)

/-- The reconnect-timer callback: consume the timer, increment the
attempt counter, and call connect (a failure of that attempt arrives
later as a socket error event). -/
def timerFire (s : WsState) : WsState × List WsEvent :=
  wsConnect { s with timerArmed := false, reconnectAttempts := s.reconnectAttempts + 1 }

/-- The stimuli of the connection manager.  Socket close/error callbacks
can fire at any time (the state guard in handleDisconnect neutralises
stale ones); the open callback can only fire for an existing socket while
still connecting, and the reconnect-timer callback only while the timer
is armed. -/
inductive WsLabel
  | connectOp
  | disconnectOp
  | wsOpenEv
  | wsCloseEv
  | wsErrorEv
  | timerFireEv
  deriving Repr, DecidableEq

/-- One step of the connection manager. -/
def wsStep (autoConnect : Bool) (s : WsState) : WsLabel → WsState × List WsEvent
  | .connectOp => wsConnect s
  | .disconnectOp => wsDisconnect s
  | .wsOpenEv =>
    if s.wsPresent ∧ s.state = .connecting then wsOpen s else (s, [])
  | .wsCloseEv => handleDisconnect autoConnect s
  | .wsErrorEv => handleDisconnect autoConnect s
  | .timerFireEv =>
    if s.timerArmed then timerFire s else (s, [])

/-- Run a sequence of stimuli, collecting all events in order. -/
def wsRun (autoConnect : Bool) (s : WsState) : List WsLabel → WsState × List WsEvent
  | [] => (s, [])
  | l :: ls =>
    let r1 := wsStep autoConnect s l
    let r2 := wsRun autoConnect r1.1 ls
    (r2.1, r1.2 ++ r2.2)

/-- The delays of the scheduled events of an event list, in order. -/
def scheduledDelays (evs : List WsEvent) : List Nat :=
  evs.filterMap (fun e => match e with | .scheduled d => some d | _ => none)

/-- The number of state-change events in an event list. -/
def stateChangeCount (evs : List WsEvent) : Nat :=
  (evs.filter (fun e => match e with | .stateChange _ => true | _ => false)).length

/-- An unbroken failure sequence: an initial connect that fails with a
socket error, followed by n cycles of the reconnect timer firing and the
resulting attempt failing with a socket error. -/
def failTrace : Nat → List WsLabel
  | 0 => [.connectOp, .wsErrorEv]
  | n + 1 => failTrace n ++ [.timerFireEv, .wsErrorEv]

/-! ### Helper lemmas about event counting -/

theorem isSettleFor_issued (i j : Nat) : isSettleFor i (.issued j) = false := rfl

theorem isSettleFor_threw (i : Nat) : isSettleFor i .threwNotConnected = false := rfl

theorem isSettleFor_settle (i j : Nat) (o : Outcome) :
    isSettleFor i (.settle j o) = (j == i) := rfl

theorem settleCount_nil (i : Nat) : settleCount [] i = 0 := rfl

theorem settleCount_append (a b : List REvent) (i : Nat) :
    settleCount (a ++ b) i = settleCount a i + settleCount b i := by
  simp [settleCount, List.filter_append]

theorem settleCount_cons (e : REvent) (evs : List REvent) (i : Nat) :
    settleCount (e :: evs) i = (if isSettleFor i e then 1 else 0) + settleCount evs i := by
  by_cases h : isSettleFor i e <;> simp [settleCount, List.filter_cons, h, Nat.add_comm]

theorem settleCount_singleton (e : REvent) (i : Nat) :
    settleCount [e] i = if isSettleFor i e then 1 else 0 := by
  rw [settleCount_cons, settleCount_nil, Nat.add_zero]

/-- The settle events produced by dispose for a duplicate-free pending
table settle each pending id exactly once and nothing else. -/
theorem settleCount_dispose (p : List Nat) (hnd : p.Nodup) (i : Nat) :
    settleCount (p.map (fun j => REvent.settle j .disposedRej)) i =
      if i ∈ p then 1 else 0 := by
  induction p with
  | nil => simp [settleCount_nil]
  | cons j t ih =>
    rw [List.map_cons, settleCount_cons]
    rcases List.nodup_cons.mp hnd with ⟨hjt, hndt⟩
    by_cases hij : j = i
    · subst hij
      rw [ih hndt]
      simp [isSettleFor_settle, hjt]
    · rw [ih hndt]
      simp [isSettleFor_settle, hij, List.mem_cons, Ne.symm hij]

/-! ### The pending-table invariant -/

/-- The inductive invariant of the multiplexer: the pending table is
duplicate-free, every pending id and every assigned id is at most the
counter, every pending id was assigned, and every assigned id has settled
exactly once if it is no longer pending and not at all if it still is. -/
def goodState (s : RpcState) (evs : List REvent) : Prop :=
  s.pending.Nodup ∧
  (∀ i ∈ s.pending, i ≤ s.requestId) ∧
  (∀ i : Nat, REvent.issued i ∈ evs → i ≤ s.requestId) ∧
  (∀ i ∈ s.pending, REvent.issued i ∈ evs) ∧
  (∀ i : Nat, settleCount evs i =
    if REvent.issued i ∈ evs ∧ i ∉ s.pending then 1 else 0)

theorem init_good : goodState rpcInit [] := by
  refine ⟨List.nodup_nil, ?_, ?_, ?_, ?_⟩ <;> simp [rpcInit, settleCount_nil]

theorem step_good (s : RpcState) (evs : List REvent) (l : RpcLabel)
    (h : goodState s evs) :
    goodState (rpcStep s l).1 (evs ++ (rpcStep s l).2) := by
  obtain ⟨hnd, hple, hile, hpi, hsc⟩ := h
  cases l with
  | issue c so =>
    cases c with
    | false =>
      have hstep : rpcStep s (.issue false so) = (s, [.threwNotConnected]) := by
        simp [rpcStep, request]
      rw [hstep]
      refine ⟨hnd, hple, ?_, ?_, ?_⟩
      · intro i hi
        rcases List.mem_append.mp hi with hi | hi
        · exact hile i hi
        · simp at hi
      · intro i hi
        exact List.mem_append_left _ (hpi i hi)
      · intro i
        rw [settleCount_append, settleCount_singleton]
        simp only [isSettleFor_threw, Bool.false_eq_true, if_false, Nat.add_zero]
        rw [hsc i]
        simp
    | true =>
      have hfresh : s.requestId + 1 ∉ s.pending := fun hmem =>
        absurd (hple _ hmem) (by omega)
      have hfreshEv : REvent.issued (s.requestId + 1) ∉ evs := fun hmem =>
        absurd (hile _ hmem) (by omega)
      cases so with
      | true =>
        have hstep : rpcStep s (.issue true true) =
            ({ s with
                requestId := s.requestId + 1
                pending := (s.requestId + 1) :: s.pending },
              [.issued (s.requestId + 1)]) := by
          simp [rpcStep, request]
        rw [hstep]
        dsimp only
        refine ⟨List.nodup_cons.mpr ⟨hfresh, hnd⟩, ?_, ?_, ?_, ?_⟩
        · intro i hi
          rcases List.mem_cons.mp hi with rfl | hi
          · exact Nat.le_refl _
          · exact Nat.le_succ_of_le (hple i hi)
        · intro i hi
          rcases List.mem_append.mp hi with hi | hi
          · exact Nat.le_succ_of_le (hile i hi)
          · simp at hi
            show i ≤ s.requestId + 1
            omega
        · intro i hi
          rcases List.mem_cons.mp hi with rfl | hi
          · simp
          · exact List.mem_append_left _ (hpi i hi)
        · intro i
          rw [settleCount_append, settleCount_singleton]
          simp only [isSettleFor_issued, Bool.false_eq_true, if_false, Nat.add_zero]
          rw [hsc i]
          by_cases hi : i = s.requestId + 1
          · simp [hi, hfreshEv]
          · simp [List.mem_append, List.mem_cons, hi]
      | false =>
        have hstep : rpcStep s (.issue true false) =
            ({ s with requestId := s.requestId + 1 },
              [.issued (s.requestId + 1), .settle (s.requestId + 1) .sendFail]) := by
          simp [rpcStep, request]
        rw [hstep]
        dsimp only
        refine ⟨hnd, ?_, ?_, ?_, ?_⟩
        · intro i hi
          exact Nat.le_succ_of_le (hple i hi)
        · intro i hi
          rcases List.mem_append.mp hi with hi | hi
          · exact Nat.le_succ_of_le (hile i hi)
          · simp at hi
            show i ≤ s.requestId + 1
            omega
        · intro i hi
          exact List.mem_append_left _ (hpi i hi)
        · intro i
          rw [settleCount_append, settleCount_cons, settleCount_singleton]
          simp only [isSettleFor_issued, isSettleFor_settle, Bool.false_eq_true, if_false,
            Nat.zero_add]
          rw [hsc i]
          by_cases hi : i = s.requestId + 1
          · simp [hi, hfreshEv, hfresh]
          · have hbeq : ((s.requestId + 1 : Nat) == i) = false := by
              simp [Ne.symm hi]
            simp [hbeq, List.mem_append, List.mem_cons, hi]
  | inResp r =>
    by_cases hmem : r.id ∈ s.pending
    · have hone : ∀ o : Outcome,
          goodState { s with pending := s.pending.erase r.id }
            (evs ++ [REvent.settle r.id o]) := by
        intro o
        refine ⟨hnd.erase _, ?_, ?_, ?_, ?_⟩
        · intro i hi
          exact hple i (List.mem_of_mem_erase hi)
        · intro i hi
          rcases List.mem_append.mp hi with hi | hi
          · exact hile i hi
          · simp at hi
        · intro i hi
          exact List.mem_append_left _ (hpi i (List.mem_of_mem_erase hi))
        · intro i
          rw [settleCount_append, settleCount_singleton]
          rw [hsc i]
          by_cases hi : i = r.id
          · simp [hi, isSettleFor_settle, hmem, hpi r.id hmem, hnd.not_mem_erase]
          · have hbeq : (r.id == i) = false := by simp [Ne.symm hi]
            simp [isSettleFor_settle, hbeq, List.mem_erase_of_ne hi, hi]
      cases herr : r.error with
      | none =>
        have hstep : rpcStep s (.inResp r) =
            ({ s with pending := s.pending.erase r.id },
              [.settle r.id (.fulfilled r.result)]) := by
          simp [rpcStep, handleResponse, hmem, herr]
        rw [hstep]
        exact hone _
      | some e =>
        have hstep : rpcStep s (.inResp r) =
            ({ s with pending := s.pending.erase r.id },
              [.settle r.id (.remoteErr e.message)]) := by
          simp [rpcStep, handleResponse, hmem, herr]
        rw [hstep]
        exact hone _
    · have hstep : rpcStep s (.inResp r) = (s, []) := by
        simp [rpcStep, handleResponse, hmem]
      rw [hstep]
      simpa using ⟨hnd, hple, hile, hpi, hsc⟩
  | fireTimer id =>
    by_cases hmem : id ∈ s.pending
    · have hstep : rpcStep s (.fireTimer id) =
          ({ s with pending := s.pending.erase id }, [.settle id .timedOut]) := by
        simp [rpcStep, fireTimeout, hmem]
      rw [hstep]
      refine ⟨hnd.erase _, ?_, ?_, ?_, ?_⟩
      · intro i hi
        exact hple i (List.mem_of_mem_erase hi)
      · intro i hi
        rcases List.mem_append.mp hi with hi | hi
        · exact hile i hi
        · simp at hi
      · intro i hi
        exact List.mem_append_left _ (hpi i (List.mem_of_mem_erase hi))
      · intro i
        rw [settleCount_append, settleCount_singleton]
        rw [hsc i]
        by_cases hi : i = id
        · simp [hi, isSettleFor_settle, hmem, hpi id hmem, hnd.not_mem_erase]
        · have hbeq : (id == i) = false := by simp [Ne.symm hi]
          simp [isSettleFor_settle, hbeq, List.mem_erase_of_ne hi, hi]
    · have hstep : rpcStep s (.fireTimer id) = (s, []) := by
        simp [rpcStep, fireTimeout, hmem]
      rw [hstep]
      simpa using ⟨hnd, hple, hile, hpi, hsc⟩
  | disposeOp =>
    have hstep : rpcStep s .disposeOp =
        ({ s with pending := [], handlers := fun _ => [] },
          s.pending.map (fun i => REvent.settle i .disposedRej)) := by
      simp [rpcStep, disposeRpc]
    rw [hstep]
    refine ⟨List.nodup_nil, ?_, ?_, ?_, ?_⟩
    · intro i hi
      simp at hi
    · intro i hi
      rcases List.mem_append.mp hi with hi | hi
      · exact hile i hi
      · simp at hi
    · intro i hi
      simp at hi
    · intro i
      rw [settleCount_append, settleCount_dispose s.pending hnd i, hsc i]
      by_cases hi : i ∈ s.pending
      · simp [hi, hpi i hi]
      · simp [hi]

theorem run_good (ls : List RpcLabel) : ∀ (s : RpcState) (evs : List REvent),
    goodState s evs → goodState (rpcRun s ls).1 (evs ++ (rpcRun s ls).2) := by
  induction ls with
  | nil =>
    intro s evs h
    simpa [rpcRun] using h
  | cons l ls ih =>
    intro s evs h
    have h2 := ih (rpcStep s l).1 (evs ++ (rpcStep s l).2) (step_good s evs l h)
    simpa [rpcRun, List.append_assoc] using h2

/-- The invariant at the end of any run from the initial state. -/
theorem run_good_init (ls : List RpcLabel) :
    goodState (rpcRun rpcInit ls).1 (rpcRun rpcInit ls).2 := by
  simpa using run_good ls rpcInit [] init_good

/-! ### Assigned correlation ids along a run -/

theorem issuedIds_append (a b : List REvent) :
    issuedIds (a ++ b) = issuedIds a ++ issuedIds b := by
  simp [issuedIds, List.filterMap_append]

theorem issuedIds_settles (p : List Nat) (o : Outcome) :
    issuedIds (p.map fun j => REvent.settle j o) = [] := by
  induction p with
  | nil => rfl
  | cons j t ih => simp [issuedIds, List.filterMap_cons] at ih ⊢

theorem rpcRun_cons (s : RpcState) (l : RpcLabel) (ls : List RpcLabel) :
    rpcRun s (l :: ls) =
      ((rpcRun (rpcStep s l).1 ls).1, (rpcStep s l).2 ++ (rpcRun (rpcStep s l).1 ls).2) := rfl

/-- Along any run, the assigned ids are exactly the next countConn
successive values of the counter, and the counter advances by exactly
that amount. -/
theorem issuedIds_run (ls : List RpcLabel) : ∀ s : RpcState,
    issuedIds (rpcRun s ls).2 = List.range' (s.requestId + 1) (countConn ls) ∧
    (rpcRun s ls).1.requestId = s.requestId + countConn ls := by
  induction ls with
  | nil => intro s; simp [rpcRun, issuedIds, countConn]
  | cons l ls ih =>
    intro s
    obtain ⟨ihA, ihB⟩ := ih (rpcStep s l).1
    rw [rpcRun_cons]
    dsimp only
    rw [issuedIds_append, ihA, ihB]
    cases l with
    | issue c so =>
      cases c with
      | false =>
        have hstep : rpcStep s (.issue false so) = (s, [.threwNotConnected]) := by
          simp [rpcStep, request]
        rw [hstep]
        dsimp only
        constructor
        · rfl
        · simp [countConn]
      | true =>
        have hids : issuedIds (rpcStep s (.issue true so)).2 = [s.requestId + 1] := by
          cases so <;> simp [rpcStep, request, issuedIds, List.filterMap_cons]
        have hrid : (rpcStep s (.issue true so)).1.requestId = s.requestId + 1 := by
          cases so <;> simp [rpcStep, request]
        rw [hids, hrid]
        constructor
        · rw [show countConn (RpcLabel.issue true so :: ls) = countConn ls + 1 from rfl,
            List.range'_succ]
          rfl
        · rw [show countConn (RpcLabel.issue true so :: ls) = countConn ls + 1 from rfl]
          omega
    | inResp r =>
      have hids : issuedIds (rpcStep s (.inResp r)).2 = [] := by
        by_cases hmem : r.id ∈ s.pending
        · cases herr : r.error <;>
            simp [rpcStep, handleResponse, hmem, herr, issuedIds, List.filterMap_cons]
        · simp [rpcStep, handleResponse, hmem, issuedIds]
      have hrid : (rpcStep s (.inResp r)).1.requestId = s.requestId := by
        by_cases hmem : r.id ∈ s.pending <;> simp [rpcStep, handleResponse, hmem]
      rw [hids, hrid]
      simp [countConn]
    | fireTimer id =>
      have hids : issuedIds (rpcStep s (.fireTimer id)).2 = [] := by
        by_cases hmem : id ∈ s.pending <;>
          simp [rpcStep, fireTimeout, hmem, issuedIds, List.filterMap_cons]
      have hrid : (rpcStep s (.fireTimer id)).1.requestId = s.requestId := by
        by_cases hmem : id ∈ s.pending <;> simp [rpcStep, fireTimeout, hmem]
      rw [hids, hrid]
      simp [countConn]
    | disposeOp =>
      have hids : issuedIds (rpcStep s .disposeOp).2 = [] := by
        simp [rpcStep, disposeRpc, issuedIds_settles]
      have hrid : (rpcStep s .disposeOp).1.requestId = s.requestId := by
        simp [rpcStep, disposeRpc]
      rw [hids, hrid]
      simp [countConn]

/-- A list of length at most one has at most one member. -/
theorem mem_eq_of_length_le_one {α : Type} : ∀ {l : List α}, l.length ≤ 1 →
    ∀ a ∈ l, ∀ b ∈ l, a = b
  | [], _, a, ha, _, _ => absurd ha (List.not_mem_nil a)
  | [x], _, a, ha, b, hb => by
    simp at ha hb
    rw [ha, hb]
  | x :: y :: t, h, _, _, _, _ => by simp at h

/-! ### Claim theorems: multiplexer -/

/-- C1: for every sequence of request issues, inbound responses, timeout
firings and dispose calls, each call settles at most once; it has settled
(exactly once) precisely when its id was assigned and its entry is no
longer pending; it never settles with two different outcomes (each
settlement being fulfilment with the matching response's result,
rejection with the remote error, timeout, send-failure, or disposal); and
while a call is still pending its timeout timer is armed and its firing
settles the call, so in every completed execution each issued call
settles exactly once. -/
theorem exactly_once_resolution (ls : List RpcLabel) (i : Nat) :
    settleCount (rpcRun rpcInit ls).2 i ≤ 1 ∧
    (settleCount (rpcRun rpcInit ls).2 i =
      if REvent.issued i ∈ (rpcRun rpcInit ls).2 ∧ i ∉ (rpcRun rpcInit ls).1.pending
      then 1 else 0) ∧
    (∀ o1 o2 : Outcome, REvent.settle i o1 ∈ (rpcRun rpcInit ls).2 →
      REvent.settle i o2 ∈ (rpcRun rpcInit ls).2 → o1 = o2) ∧
    (i ∈ (rpcRun rpcInit ls).1.pending →
      (rpcStep (rpcRun rpcInit ls).1 (.fireTimer i)).2 = [REvent.settle i .timedOut] ∧
      i ∉ (rpcStep (rpcRun rpcInit ls).1 (.fireTimer i)).1.pending) := by
  obtain ⟨hnd, hple, hile, hpi, hsc⟩ := run_good_init ls
  have hle : settleCount (rpcRun rpcInit ls).2 i ≤ 1 := by
    rw [hsc i]
    split <;> omega
  refine ⟨hle, hsc i, ?_, ?_⟩
  · intro o1 o2 h1 h2
    have m1 : REvent.settle i o1 ∈ ((rpcRun rpcInit ls).2.filter (isSettleFor i)) :=
      List.mem_filter.mpr ⟨h1, by simp [isSettleFor_settle]⟩
    have m2 : REvent.settle i o2 ∈ ((rpcRun rpcInit ls).2.filter (isSettleFor i)) :=
      List.mem_filter.mpr ⟨h2, by simp [isSettleFor_settle]⟩
    have := mem_eq_of_length_le_one hle _ m1 _ m2
    injection this
  · intro hmem
    constructor
    · simp [rpcStep, fireTimeout, hmem]
    · simp only [rpcStep, fireTimeout, hmem, if_pos]
      exact hnd.not_mem_erase

theorem exactly_once_resolution_witness :
    1 ∈ (rpcRun rpcInit [.issue true true]).1.pending ∧
    (rpcStep (rpcRun rpcInit [.issue true true]).1 (.fireTimer 1)).2 =
      [REvent.settle 1 .timedOut] :=
  ⟨by decide, ((exactly_once_resolution [.issue true true] 1).2.2.2 (by decide)).1⟩

/-- C2: along any run from the initial state the assigned correlation ids
are exactly 1, 2, ..., countConn ls (so they are pairwise distinct and
strictly increasing, and the first assigned id is 1), and the next id to
be assigned is never one that is still in flight. -/
theorem ids_distinct_increasing (ls : List RpcLabel) :
    issuedIds (rpcRun rpcInit ls).2 = List.range' 1 (countConn ls) ∧
    (issuedIds (rpcRun rpcInit ls).2).Pairwise (· < ·) ∧
    (0 < countConn ls → (issuedIds (rpcRun rpcInit ls).2).head? = some 1) ∧
    (rpcRun rpcInit ls).1.requestId + 1 ∉ (rpcRun rpcInit ls).1.pending := by
  obtain ⟨hA, hB⟩ := issuedIds_run ls rpcInit
  have h0 : rpcInit.requestId = 0 := rfl
  rw [h0] at hA
  refine ⟨by simpa using hA, ?_, ?_, ?_⟩
  · rw [show (0 : Nat) + 1 = 1 from rfl] at hA
    rw [hA]
    exact List.pairwise_lt_range' 1 (countConn ls)
  · intro hpos
    rw [show (0 : Nat) + 1 = 1 from rfl] at hA
    rw [hA]
    cases hk : countConn ls with
    | zero => rw [hk] at hpos; omega
    | succ k => rw [List.range'_succ]; rfl
  · obtain ⟨-, hple, -, -, -⟩ := run_good_init ls
    intro hmem
    exact absurd (hple _ hmem) (by omega)

theorem ids_distinct_increasing_witness :
    0 < countConn [RpcLabel.issue true true, RpcLabel.issue true true] ∧
    (issuedIds (rpcRun rpcInit [.issue true true, .issue true true]).2).head? = some 1 :=
  ⟨by decide,
    (ids_distinct_increasing [.issue true true, .issue true true]).2.2.1 (by decide)⟩

/-- C7: when the connection manager does not report connected, notify
returns without handing any envelope to send (and without throwing, being
a total function), and request fails immediately with the not-connected
error, leaving the whole handler state unchanged: no pending entry is
registered, no id is allocated, and no timer is armed. -/
theorem not_connected_failfast (s : RpcState) (method : String) (params : Option Val)
    (sendOk : Bool) :
    notify false method params = none ∧
    rpcStep s (.issue false sendOk) = (s, [.threwNotConnected]) := by
  constructor
  · rfl
  · simp [rpcStep, request]

/-- C8: an inbound Response whose id has no pending entry is discarded
without any effect: the pending table (and with it every other
outstanding call's armed timer), the requestId counter and the
notification-handler registry are all unchanged, and no event (in
particular no error) is produced. -/
theorem stale_response_no_effect (s : RpcState) (r : Resp) (h : r.id ∉ s.pending) :
    rpcStep s (.inResp r) = (s, []) := by
  simp [rpcStep, handleResponse, h]

/-- Sample state for the stale-response witness. -/
def c8State : RpcState :=
  ⟨3, [2, 3], fun _ => []⟩

theorem stale_response_no_effect_witness :
    (5 : Nat) ∉ c8State.pending ∧
    rpcStep c8State (.inResp ⟨5, some "x", none⟩) = (c8State, []) :=
  ⟨by decide, stale_response_no_effect c8State ⟨5, some "x", none⟩ (by decide)⟩

/-- C10: for a Response matching a pending call, a present (truthy) error
field makes the caller be rejected with the remote error message even
when a result field is also present, and when the error field is absent
the caller is resolved with the result field as-is — in particular with
undefined when neither field is present; no well-formedness of the
exactly-one-of-result-or-error wire invariant is enforced. -/
theorem response_error_precedence (s : RpcState) (r : Resp) (h : r.id ∈ s.pending) :
    (∀ e : JsonRpcError, r.error = some e →
      (rpcStep s (.inResp r)).2 = [REvent.settle r.id (.remoteErr e.message)]) ∧
    (r.error = none →
      (rpcStep s (.inResp r)).2 = [REvent.settle r.id (.fulfilled r.result)]) := by
  constructor
  · intro e he
    simp [rpcStep, handleResponse, h, he]
  · intro he
    simp [rpcStep, handleResponse, h, he]

/-- Sample state for the error-precedence witness. -/
def c10State : RpcState :=
  ⟨1, [1], fun _ => []⟩

theorem response_error_precedence_witness :
    (1 : Nat) ∈ c10State.pending ∧
    (rpcStep c10State (.inResp ⟨1, some "res", some ⟨7, "boom", none⟩⟩)).2 =
      [REvent.settle 1 (.remoteErr "boom")] ∧
    (rpcStep c10State (.inResp ⟨1, none, none⟩)).2 =
      [REvent.settle 1 (.fulfilled none)] :=
  ⟨by decide,
    (response_error_precedence c10State ⟨1, some "res", some ⟨7, "boom", none⟩⟩
      (by decide)).1 ⟨7, "boom", none⟩ rfl,
    (response_error_precedence c10State ⟨1, none, none⟩ (by decide)).2 rfl⟩

/-! ### Notification fan-out lemmas -/

/-- When every handler in the array either returns normally or throws
(neither of which mutates the registry), the dispatch loop visits every
remaining handler in order, passing each the same params, and leaves the
array unchanged. -/
theorem runHandlers_inert (params : Val) (arr : List Handler)
    (hq : ∀ h ∈ arr, h.eff = HEff.pure ∨ h.eff = HEff.throws) :
    ∀ (fuel i : Nat) (acc : List (Nat × Val)), arr.length - i ≤ fuel →
      runHandlers params fuel arr i acc =
        (arr, acc ++ (arr.drop i).map (fun h => (h.hid, params))) := by
  intro fuel
  induction fuel with
  | zero =>
    intro i acc hle
    have hlen : arr.length ≤ i := by omega
    rw [runHandlers, List.drop_eq_nil_of_le hlen]
    simp
  | succ fuel ih =>
    intro i acc hle
    by_cases h : i < arr.length
    · rw [runHandlers, dif_pos h]
      dsimp only
      have heff : applyEff arr (arr.get ⟨i, h⟩).eff = arr := by
        rcases hq (arr.get ⟨i, h⟩) (arr.get_mem i h) with he | he <;> rw [he] <;> rfl
      rw [heff, ih (i + 1) _ (by omega)]
      rw [List.drop_eq_getElem_cons h]
      have hml : i < (arr.map (fun hh => (hh.hid, params))).length := by simpa using h
      simp [List.drop_eq_getElem_cons hml]
    · rw [runHandlers, dif_neg h]
      rw [List.drop_eq_nil_of_le (by omega)]
      simp

/-! ### Claim theorems: notification fan-out -/

/-- C6: if every handler registered for a method either returns normally
or throws, dispatching one inbound notification invokes every one of them
in registration order with the same params (a thrown exception is caught
and never stops the loop), and the registry — the dispatched method's
list and every other method's list — is left unchanged, so dispatches for
other methods are unaffected. -/
theorem fanout_exception_isolation (reg : Registry) (method : String) (params : Val)
    (hq : ∀ h ∈ reg method, h.eff = HEff.pure ∨ h.eff = HEff.throws) :
    (handleNotification (reg method).length reg method params).2 =
      (reg method).map (fun h => (h.hid, params)) ∧
    ∀ m : String, (handleNotification (reg method).length reg method params).1 m = reg m := by
  have hrun := runHandlers_inert params (reg method) hq (reg method).length 0 [] (by omega)
  constructor
  · simp [handleNotification, hrun]
  · intro m
    by_cases hm : m = method
    · simp [handleNotification, hrun, hm]
    · simp [handleNotification, hm]

/-- Sample registry for the exception-isolation witness: a throwing
handler registered before a normal one. -/
def c6Reg : Registry :=
  fun m => if m = "M" then [⟨0, .throws⟩, ⟨1, .pure⟩] else []

theorem fanout_exception_isolation_witness :
    (∀ h ∈ c6Reg "M", h.eff = HEff.pure ∨ h.eff = HEff.throws) ∧
    (handleNotification (c6Reg "M").length c6Reg "M" "p").2 =
      (c6Reg "M").map (fun h => (h.hid, "p")) :=
  ⟨by decide, (fanout_exception_isolation c6Reg "M" "p" (by decide)).1⟩

/-- Registry in which the first handler for method M unsubscribes itself
(as the disposable returned by onNotification does) while a second
handler is registered after it. -/
def c4RegSelf : Registry :=
  fun m => if m = "M" then [⟨0, .unsub 0⟩, ⟨1, .pure⟩] else []

/-- Registry in which the sole handler for method M registers a new
handler for M mid-dispatch. -/
def c4RegPush : Registry :=
  fun m => if m = "M" then [⟨0, .register 7⟩] else []

/-- C4 fails on the code: handleNotification iterates the live array
stored in the map (it is not snapshotted), so when handler 0 unsubscribes
itself mid-dispatch, handler 1 — registered for the method at dispatch
start — is skipped (only handler 0 is invoked, although handler 1 is
still registered afterwards); and a handler registered mid-dispatch (id
7) is invoked in that same dispatch. -/
theorem fanout_live_iteration_bug :
    (handleNotification 2 c4RegSelf "M" "p").2 = [(0, "p")] ∧
    (handleNotification 2 c4RegSelf "M" "p").1 "M" = [⟨1, .pure⟩] ∧
    (handleNotification 2 c4RegPush "M" "p").2 = [(0, "p"), (7, "p")] := by
  refine ⟨?_, ?_, ?_⟩ <;> decide

/-! ### Connection manager lemmas -/

theorem wsRun_cons (a : Bool) (s : WsState) (l : WsLabel) (ls : List WsLabel) :
    wsRun a s (l :: ls) =
      ((wsRun a (wsStep a s l).1 ls).1,
        (wsStep a s l).2 ++ (wsRun a (wsStep a s l).1 ls).2) := rfl

theorem wsRun_append (a : Bool) (ls1 ls2 : List WsLabel) : ∀ s : WsState,
    wsRun a s (ls1 ++ ls2) =
      ((wsRun a (wsRun a s ls1).1 ls2).1,
        (wsRun a s ls1).2 ++ (wsRun a (wsRun a s ls1).1 ls2).2) := by
  induction ls1 with
  | nil => intro s; rfl
  | cons l ls ih =>
    intro s
    rw [List.cons_append, wsRun_cons, wsRun_cons, ih (wsStep a s l).1]
    dsimp only
    rw [List.append_assoc]

theorem scheduledDelays_append (a b : List WsEvent) :
    scheduledDelays (a ++ b) = scheduledDelays a ++ scheduledDelays b := by
  simp [scheduledDelays, List.filterMap_append]

theorem stateChangeCount_append (a b : List WsEvent) :
    stateChangeCount (a ++ b) = stateChangeCount a + stateChangeCount b := by
  simp [stateChangeCount, List.filter_append]

/-- A state in which the manager is at rest: disconnected, no reconnect
timer armed, no socket.  disconnect() always produces such a state. -/
def quiescent (s : WsState) : Prop :=
  s.state = .disconnected ∧ s.timerArmed = false ∧ s.wsPresent = false

theorem quiescent_fixed (a : Bool) (s : WsState) (hq : quiescent s) :
    ∀ l : WsLabel, l ≠ .connectOp → wsStep a s l = (s, []) := by
  obtain ⟨st, ra, ta, wp⟩ := s
  obtain ⟨h1, h2, h3⟩ := hq
  dsimp only at h1 h2 h3
  subst h1; subst h2; subst h3
  intro l hl
  cases l with
  | connectOp => exact absurd rfl hl
  | disconnectOp => simp [wsStep, wsDisconnect, cancelReconnect, setState]
  | wsOpenEv => simp [wsStep]
  | wsCloseEv => simp [wsStep, handleDisconnect]
  | wsErrorEv => simp [wsStep, handleDisconnect]
  | timerFireEv => simp [wsStep]

theorem quiescent_run (a : Bool) (ls : List WsLabel) : ∀ s : WsState, quiescent s →
    WsLabel.connectOp ∉ ls → wsRun a s ls = (s, []) := by
  induction ls with
  | nil => intro s _ _; rfl
  | cons l ls ih =>
    intro s hq hno
    have hl : l ≠ .connectOp := fun hcon => hno (hcon ▸ List.mem_cons_self l ls)
    rw [wsRun_cons, quiescent_fixed a s hq l hl]
    dsimp only
    rw [ih s hq (fun hm => hno (List.mem_cons_of_mem l hm))]
    rfl

theorem wsDisconnect_quiescent (s : WsState) : quiescent (wsDisconnect s).1 := by
  obtain ⟨st, ra, ta, wp⟩ := s
  by_cases h : st = ConnectionState.disconnected <;>
    simp [wsDisconnect, cancelReconnect, setState, quiescent, h]

/-- handleDisconnect arms a reconnect timer only when the manager was not
already disconnected, autoConnect holds and the attempt counter is below
10, and the armed delay is the backoff value for the current counter. -/
theorem scheduled_mem_handleDisconnect (a : Bool) (s : WsState) (d : Nat)
    (hmem : WsEvent.scheduled d ∈ (handleDisconnect a s).2) :
    s.state ≠ .disconnected ∧ a = true ∧ s.reconnectAttempts < 10 ∧
      d = delayFor s.reconnectAttempts := by
  by_cases hd : s.state = ConnectionState.disconnected
  · simp [handleDisconnect, hd] at hmem
  · by_cases hga : a = true ∧ s.reconnectAttempts < 10
    · refine ⟨hd, hga.1, hga.2, ?_⟩
      simp [handleDisconnect, hd, setState, scheduleReconnect, cancelReconnect, hga.1,
        hga.2] at hmem
      exact hmem
    · exfalso
      simp [handleDisconnect, hd, setState, hga] at hmem

/-- Scheduled-timer events arise only from close/error handling in a
non-disconnected state with autoConnect on and the counter below 10. -/
theorem scheduled_mem_step (a : Bool) (s : WsState) (l : WsLabel) (d : Nat)
    (hmem : WsEvent.scheduled d ∈ (wsStep a s l).2) :
    (l = .wsCloseEv ∨ l = .wsErrorEv) ∧ s.state ≠ .disconnected ∧ a = true ∧
      s.reconnectAttempts < 10 ∧ d = delayFor s.reconnectAttempts := by
  cases l with
  | wsCloseEv =>
    have h := scheduled_mem_handleDisconnect a s d hmem
    exact ⟨Or.inl rfl, h.1, h.2.1, h.2.2.1, h.2.2.2⟩
  | wsErrorEv =>
    have h := scheduled_mem_handleDisconnect a s d hmem
    exact ⟨Or.inr rfl, h.1, h.2.1, h.2.2.1, h.2.2.2⟩
  | connectOp =>
    exfalso
    by_cases hc1 : s.state = ConnectionState.connected
    · simp [wsStep, wsConnect, hc1] at hmem
    · by_cases hc2 : s.state = ConnectionState.connecting
      · simp [wsStep, wsConnect, hc2] at hmem
      · simp [wsStep, wsConnect, hc1, hc2, setState] at hmem
  | disconnectOp =>
    exfalso
    by_cases hd : s.state = ConnectionState.disconnected <;>
      simp [wsStep, wsDisconnect, setState, cancelReconnect, hd] at hmem
  | wsOpenEv =>
    exfalso
    by_cases hg : s.wsPresent = true ∧ s.state = ConnectionState.connecting
    · obtain ⟨hw, hs⟩ := hg
      simp [wsStep, hw, hs, wsOpen, setState] at hmem
    · simp [wsStep, hg] at hmem
  | timerFireEv =>
    exfalso
    by_cases ht : s.timerArmed = true
    · by_cases hcz : s.state = ConnectionState.connecting
      · simp [wsStep, ht, timerFire, wsConnect, hcz] at hmem
      · by_cases hcc : s.state = ConnectionState.connected
        · simp [wsStep, ht, timerFire, wsConnect, hcc] at hmem
        · simp [wsStep, ht, timerFire, wsConnect, hcz, hcc, setState] at hmem
    · simp [wsStep, ht] at hmem

/-! ### Claim theorems: connection manager -/

/-- C3 fails on the code as stated: the execution that calls connect()
and then receives a socket error — so the manager was only ever
Connecting, never Connected — ends with a reconnect timer armed (and a
scheduled event emitted), because handleDisconnect only early-returns
when the state is already Disconnected. -/
theorem reconnect_without_connected :
    (wsRun true wsInit [.connectOp, .wsErrorEv]).1.timerArmed = true ∧
    WsEvent.stateChange .connected ∉ (wsRun true wsInit [.connectOp, .wsErrorEv]).2 ∧
    WsEvent.scheduled 1000 ∈ (wsRun true wsInit [.connectOp, .wsErrorEv]).2 := by
  refine ⟨?_, ?_, ?_⟩ <;> decide

/-- C3 (amended): a reconnect timer is armed only by transport
close/error handling while the manager is not already Disconnected (be it
Connected or Connecting), with autoConnect on and fewer than 10 attempts;
and never after an explicit disconnect(): disconnect() leaves the timer
unarmed and, as long as connect() is not called again, no subsequent
stimulus arms one or has any effect at all. -/
theorem reconnect_scheduling_policy :
    (∀ (a : Bool) (s : WsState) (l : WsLabel) (d : Nat),
      WsEvent.scheduled d ∈ (wsStep a s l).2 →
      (l = .wsCloseEv ∨ l = .wsErrorEv) ∧ s.state ≠ .disconnected ∧ a = true ∧
        s.reconnectAttempts < 10) ∧
    (∀ (a : Bool) (s : WsState) (ls : List WsLabel), WsLabel.connectOp ∉ ls →
      (wsDisconnect s).1.timerArmed = false ∧
      wsRun a (wsDisconnect s).1 ls = ((wsDisconnect s).1, [])) := by
  constructor
  · intro a s l d hmem
    have h := scheduled_mem_step a s l d hmem
    exact ⟨h.1, h.2.1, h.2.2.1, h.2.2.2.1⟩
  · intro a s ls hno
    have hq := wsDisconnect_quiescent s
    exact ⟨hq.2.1, quiescent_run a ls (wsDisconnect s).1 hq hno⟩

theorem reconnect_scheduling_policy_witness :
    WsEvent.scheduled 1000 ∈
      (wsStep true ⟨.connecting, 0, false, true⟩ .wsErrorEv).2 ∧
    (⟨.connecting, 0, false, true⟩ : WsState).state ≠ .disconnected ∧
    WsLabel.connectOp ∉ ([.wsCloseEv] : List WsLabel) ∧
    wsRun true (wsDisconnect ⟨.connected, 3, true, true⟩).1 [.wsCloseEv] =
      ((wsDisconnect ⟨.connected, 3, true, true⟩).1, []) :=
  ⟨by decide,
    (reconnect_scheduling_policy.1 true ⟨.connecting, 0, false, true⟩ .wsErrorEv 1000
      (by decide)).2.1,
    by decide,
    (reconnect_scheduling_policy.2 true ⟨.connected, 3, true, true⟩ [.wsCloseEv]
      (by decide)).2⟩

/-! ### Backoff failure cycles -/

theorem delayFor_mono : Monotone delayFor := by
  apply monotone_nat_of_le_succ
  intro n
  have hpw : 1000 * 2 ^ n ≤ 1000 * 2 ^ (n + 1) :=
    Nat.mul_le_mul (Nat.le_refl 1000)
      (Nat.pow_le_pow_right (by omega) (Nat.le_succ n))
  exact min_le_min hpw (Nat.le_refl 30000)

/-- One failure cycle from an armed, waiting state: the timer fires, the
attempt is made and fails; while the new counter is still below 10 this
re-arms the timer with the next backoff delay. -/
theorem failCycle_sched (k : Nat) (h : k + 1 < 10) :
    wsRun true ⟨.disconnected, k, true, false⟩ [.timerFireEv, .wsErrorEv] =
      (⟨.disconnected, k + 1, true, false⟩,
        [.stateChange .connecting, .stateChange .disconnected,
          .scheduled (delayFor (k + 1))]) := by
  simp [wsRun, wsStep, timerFire, wsConnect, setState, handleDisconnect, scheduleReconnect,
    cancelReconnect, h]

/-- The tenth failure exhausts the attempt budget: the cycle ends with no
timer armed and nothing scheduled. -/
theorem failCycle_last (k : Nat) (h : ¬ k + 1 < 10) :
    wsRun true ⟨.disconnected, k, true, false⟩ [.timerFireEv, .wsErrorEv] =
      (⟨.disconnected, k + 1, false, false⟩,
        [.stateChange .connecting, .stateChange .disconnected]) := by
  simp [wsRun, wsStep, timerFire, wsConnect, setState, handleDisconnect, scheduleReconnect,
    cancelReconnect, h]

/-- After giving up, further timer/error stimuli change nothing. -/
theorem failCycle_dead :
    wsRun true ⟨.disconnected, 10, false, false⟩ [.timerFireEv, .wsErrorEv] =
      (⟨.disconnected, 10, false, false⟩, []) := by decide

/-- The state and the scheduled delays after an unbroken failure sequence
of n reconnect cycles. -/
theorem failTrace_run : ∀ n : Nat,
    (wsRun true wsInit (failTrace n)).1 =
      (if n < 10 then ⟨.disconnected, n, true, false⟩
        else (⟨.disconnected, 10, false, false⟩ : WsState)) ∧
    scheduledDelays (wsRun true wsInit (failTrace n)).2 =
      (List.range (min (n + 1) 10)).map delayFor := by
  intro n
  induction n with
  | zero => exact ⟨by decide, by decide⟩
  | succ n ih =>
    obtain ⟨ihS, ihD⟩ := ih
    rw [show failTrace (n + 1) = failTrace n ++ [.timerFireEv, .wsErrorEv] from rfl,
      wsRun_append]
    dsimp only
    rw [ihS]
    by_cases h1 : n < 10
    · rw [if_pos h1] at *
      by_cases h2 : n + 1 < 10
      · rw [failCycle_sched n h2]
        constructor
        · rw [if_pos h2]
        · rw [scheduledDelays_append, ihD]
          have hm1 : min (n + 1) 10 = n + 1 := by omega
          have hm2 : min (n + 1 + 1) 10 = n + 2 := by omega
          rw [hm1, hm2]
          simp [scheduledDelays, List.range_succ]
      · rw [failCycle_last n h2]
        have hn9 : n = 9 := by omega
        subst hn9
        constructor
        · rw [if_neg (by omega)]
        · rw [scheduledDelays_append, ihD]
          simp [scheduledDelays]
    · rw [if_neg h1] at *
      rw [failCycle_dead]
      constructor
      · rw [if_neg (by omega)]
      · rw [scheduledDelays_append, ihD]
        have hm1 : min (n + 1) 10 = 10 := by omega
        have hm2 : min (n + 1 + 1) 10 = 10 := by omega
        rw [hm1, hm2]
        simp [scheduledDelays]

/-- C5: every armed reconnect delay equals min(1000 * 2^attempts, 30000)
for the attempt counter at scheduling time; along an unbroken failure
sequence the successive delays are the backoff values for counters
0, 1, 2, ... (pairwise nondecreasing), at most 10 delays are ever armed;
once the counter has reached 10 the timer is unarmed and — absent a
manual connect() — never becomes armed again; and a successful open
resets the counter to zero. -/
theorem backoff_policy :
    (∀ (a : Bool) (s : WsState) (l : WsLabel) (d : Nat),
      WsEvent.scheduled d ∈ (wsStep a s l).2 →
        d = min (1000 * 2 ^ s.reconnectAttempts) 30000) ∧
    (∀ n : Nat, scheduledDelays (wsRun true wsInit (failTrace n)).2 =
      (List.range (min (n + 1) 10)).map delayFor) ∧
    (∀ n : Nat,
      (scheduledDelays (wsRun true wsInit (failTrace n)).2).Pairwise (· ≤ ·)) ∧
    (∀ n : Nat, 10 ≤ n →
      (wsRun true wsInit (failTrace n)).1.timerArmed = false ∧
      ∀ ls : List WsLabel, WsLabel.connectOp ∉ ls →
        (wsRun true (wsRun true wsInit (failTrace n)).1 ls).1.timerArmed = false) ∧
    (∀ (a : Bool) (s : WsState), s.wsPresent = true → s.state = .connecting →
      (wsStep a s .wsOpenEv).1.reconnectAttempts = 0) := by
  refine ⟨?_, fun n => (failTrace_run n).2, ?_, ?_, ?_⟩
  · intro a s l d hmem
    exact (scheduled_mem_step a s l d hmem).2.2.2.2
  · intro n
    rw [(failTrace_run n).2]
    exact (List.pairwise_lt_range _).map delayFor
      (fun a b hab => delayFor_mono (Nat.le_of_lt hab))
  · intro n hn
    have hS := (failTrace_run n).1
    rw [if_neg (by omega)] at hS
    refine ⟨by rw [hS], ?_⟩
    intro ls hno
    rw [hS, quiescent_run true ls _ ⟨rfl, rfl, rfl⟩ hno]
  · intro a s hw hs
    simp [wsStep, hw, hs, wsOpen, setState]

theorem backoff_policy_witness :
    10 ≤ 10 ∧ (wsRun true wsInit (failTrace 10)).1.timerArmed = false ∧
    ((⟨.connecting, 5, false, true⟩ : WsState).wsPresent = true ∧
      (wsStep true ⟨.connecting, 5, false, true⟩ .wsOpenEv).1.reconnectAttempts = 0) :=
  ⟨by decide, (backoff_policy.2.2.2.1 10 (by decide)).1,
    rfl, backoff_policy.2.2.2.2 true ⟨.connecting, 5, false, true⟩ rfl rfl⟩

/-! ### State-change event counting -/

/-- The number of actual state changes that a stimulus list causes. -/
def numChanges (a : Bool) (s : WsState) : List WsLabel → Nat
  | [] => 0
  | l :: ls =>
    (if (wsStep a s l).1.state = s.state then 0 else 1) + numChanges a (wsStep a s l).1 ls

/-- handleDisconnect fires a state-change event exactly when it changes
the state. -/
theorem stateChangeCount_handleDisconnect (a : Bool) (s : WsState) :
    stateChangeCount (handleDisconnect a s).2 =
      if (handleDisconnect a s).1.state = s.state then 0 else 1 := by
  by_cases hd : s.state = ConnectionState.disconnected
  · simp [handleDisconnect, hd, stateChangeCount]
  · by_cases hga : a = true ∧ s.reconnectAttempts < 10 <;>
      simp [handleDisconnect, hd, setState, scheduleReconnect, cancelReconnect, hga,
        stateChangeCount, List.filter, Ne.symm hd]

/-- Every step fires a state-change event exactly when it changes the
state (and at most one such event). -/
theorem stateChangeCount_step (a : Bool) (s : WsState) (l : WsLabel) :
    stateChangeCount (wsStep a s l).2 =
      if (wsStep a s l).1.state = s.state then 0 else 1 := by
  cases l with
  | connectOp =>
    rcases hst : s.state with _ | _ | _ <;>
      simp [wsStep, wsConnect, setState, hst, stateChangeCount, List.filter]
  | disconnectOp =>
    rcases hst : s.state with _ | _ | _ <;>
      simp [wsStep, wsDisconnect, setState, cancelReconnect, hst, stateChangeCount, List.filter]
  | wsOpenEv =>
    by_cases hg : s.wsPresent = true ∧ s.state = ConnectionState.connecting
    · obtain ⟨hw, hs⟩ := hg
      simp [wsStep, hw, hs, wsOpen, setState, stateChangeCount, List.filter]
    · simp [wsStep, hg, stateChangeCount, List.filter]
  | wsCloseEv => exact stateChangeCount_handleDisconnect a s
  | wsErrorEv => exact stateChangeCount_handleDisconnect a s
  | timerFireEv =>
    by_cases ht : s.timerArmed = true
    · rcases hst : s.state with _ | _ | _ <;>
        simp [wsStep, ht, timerFire, wsConnect, setState, hst, stateChangeCount, List.filter]
    · simp [wsStep, ht, stateChangeCount, List.filter]

/-- Along any run, the number of state-change events equals the number of
actual state changes. -/
theorem events_eq_changes (a : Bool) (ls : List WsLabel) : ∀ s : WsState,
    stateChangeCount (wsRun a s ls).2 = numChanges a s ls := by
  induction ls with
  | nil => intro s; rfl
  | cons l ls ih =>
    intro s
    rw [wsRun_cons]
    dsimp only
    rw [stateChangeCount_append, stateChangeCount_step, ih (wsStep a s l).1]
    rfl

/-- C9 fails on the code as literally stated: from the initial (already
Disconnected) state, calling disconnect() twice fires zero Disconnected
state-change events, not exactly one. -/
theorem disconnect_twice_zero_events :
    stateChangeCount (wsRun true wsInit [.disconnectOp, .disconnectOp]).2 = 0 ∧
    stateChangeCount (wsRun true wsInit [.disconnectOp, .disconnectOp]).2 ≠ 1 := by
  refine ⟨by decide, by decide⟩

/-- C9 (amended): every step fires a state-change event exactly when it
actually changes the state, so over any stimulus sequence the number of
events fired equals the number of actual state changes; in particular
calling disconnect() twice in a row fires exactly one Disconnected event
when the manager was not already Disconnected and zero otherwise, the
second call always firing nothing. -/
theorem state_event_iff_change :
    (∀ (a : Bool) (s : WsState) (l : WsLabel),
      stateChangeCount (wsStep a s l).2 =
        if (wsStep a s l).1.state = s.state then 0 else 1) ∧
    (∀ (a : Bool) (s : WsState) (ls : List WsLabel),
      stateChangeCount (wsRun a s ls).2 = numChanges a s ls) ∧
    (∀ (a : Bool) (s : WsState),
      stateChangeCount (wsRun a s [.disconnectOp, .disconnectOp]).2 =
        (if s.state = .disconnected then 0 else 1) ∧
      (wsStep a (wsStep a s .disconnectOp).1 .disconnectOp).2 = []) := by
  refine ⟨stateChangeCount_step, fun a s ls => events_eq_changes a ls s, ?_⟩
  intro a s
  have h2 : (wsStep a (wsStep a s .disconnectOp).1 .disconnectOp).2 = [] := by
    show (wsDisconnect (wsDisconnect s).1).2 = []
    by_cases hd : s.state = ConnectionState.disconnected <;>
      simp [wsDisconnect, setState, cancelReconnect, hd]
  refine ⟨?_, h2⟩
  rw [wsRun_cons]
  dsimp only
  rw [wsRun_cons]
  dsimp only
  rw [stateChangeCount_append, stateChangeCount_append, h2]
  by_cases hd : s.state = ConnectionState.disconnected <;>
    simp [wsStep, wsDisconnect, setState, cancelReconnect, hd, stateChangeCount, List.filter,
      wsRun]
